import Mathlib

set_option maxHeartbeats 1000000

/-!
Verification of the keystone sync-configuration engine and the manila
share-backend utilities (`pkg/share/manila/sharebackends/util.go`).

Go strings are modelled as lists of characters (the inputs of interest are
ASCII, so the byte-level and character-level views coincide).  External
collaborators (the gophercloud client, the cluster secret client, the YAML
unmarshaller and `gophercloud.WaitFor`) are modelled from the spec as
explicit behaviour parameters; everything else is translated from the source.
-/

/-- Go strings, modelled as lists of characters. -/
abbrev Str := List Char

/-- Convenience conversion from Lean string literals into the model. -/
def strL (s : String) : Str := s.toList

/-- `strings.Contains(s, old)` for a two-character pattern `[a, b]`:
true iff the pair `a, b` occurs contiguously in `s`. -/
def containsPair (a b : Char) : Str → Bool
  | x :: y :: rest => (x = a && y = b) || containsPair a b (y :: rest)
  | _ => false

/-- `strings.Replace(s, old, new, -1)` for a two-character `old = [a, b]`:
scan left to right, replace every non-overlapping occurrence of `[a, b]`
by `nw`, never rescanning the replacement text just inserted. -/
def goReplace2 (a b : Char) (nw : Str) : Str → Str
  | [] => []
  | [c] => [c]
  | c :: d :: rest =>
    if c = a ∧ d = b then nw ++ goReplace2 a b nw rest
    else c :: goReplace2 a b nw (d :: rest)

/-- Join a list of segments, inserting `sep` between consecutive segments. -/
def interc (sep : Str) : List Str → Str
  | [] => []
  | [x] => x
  | x :: xs => x ++ sep ++ interc sep xs

/-- `strings.LastIndexByte(s, c)`: the index of the last occurrence of `c`
in `s` (`none` models Go's `-1` result). -/
def lastIndexByte (c : Char) : Str → Option Nat
  | [] => none
  | a :: rest =>
    match lastIndexByte c rest with
    | some i => some (i + 1)
    | none => if a = c then some 0 else none

/-! ## Keystone sync configuration (`part_000`, package `keystone`) -/

/-- `allowedDataTypesToSync`: by now only project syncing is supported. -/
def allowedDataTypesToSync : List Str := [strL "projects"]

/-- `syncConfig`: configuration data for Keystone/Kubernetes synchronization. -/
structure SyncConfig where
  /-- Possible data types to sync (yaml `data_types_to_sync`). -/
  DataTypesToSync : List Str
  /-- Format of automatically created namespace name (yaml `namespace_format`). -/
  NamespaceFormat : Str
  /-- Project ids excluded from syncing (yaml `projects_black_list`). -/
  ProjectBlackList : List Str
deriving DecidableEq

/-- The errors `syncConfig.validate` can return, one constructor per
`fmt.Errorf` site; `unsupportedDataType` records the offending tag and the
enumerated list of available values the message is built from. -/
inductive SyncValidationError where
  | missingProjectID
  | badNamespaceName
  | unsupportedDataType (dt : Str) (available : List Str)
deriving DecidableEq

/-- A character matched by the Go character class `[a-zA-Z0-9]`. -/
def isAlnum (c : Char) : Bool :=
  ('a' ≤ c && c ≤ 'z') || ('A' ≤ c && c ≤ 'Z') || ('0' ≤ c && c ≤ '9')

/-- A character matched by the Go character class `[a-zA-Z0-9_.-]`. -/
def isNameInner (c : Char) : Bool :=
  isAlnum c || c == '_' || c == '.' || c == '-'

/-- Matcher for the tail of `^[a-zA-Z0-9][a-zA-Z0-9_.-]*[a-zA-Z0-9]$` after
the first character: interior characters from the inner class, final
character alphanumeric. -/
def matchesTail : Str → Bool
  | [] => false
  | [c] => isAlnum c
  | c :: rest => isNameInner c && matchesTail rest

/-- `regexp.MustCompile("^[a-zA-Z0-9][a-zA-Z0-9_.-]*[a-zA-Z0-9]$").MatchString`. -/
def matchesNamespacePattern : Str → Bool
  | [] => false
  | c :: rest => isAlnum c && matchesTail rest

/-- The data-type loop of `validate`: for each tag, set a flag iff some
allowed value equals it; the first tag with the flag unset yields the
unsupported-data-type error naming the available values. -/
def checkDataTypes : List Str → Option SyncValidationError
  | [] => none
  | dt :: rest =>
    if dt ∈ allowedDataTypesToSync then checkDataTypes rest
    else some (SyncValidationError.unsupportedDataType dt allowedDataTypesToSync)

/-- `syncConfig.validate`: require `%i` in the format, check the substituted
test string (placeholders replaced by `"aa"`) against the namespace-name
pattern, then check each data type against the allow-list.  `none` models a
nil error. -/
def validate (sc : SyncConfig) : Option SyncValidationError :=
  if !containsPair '%' 'i' sc.NamespaceFormat then
    some SyncValidationError.missingProjectID
  else
    let ts := goReplace2 '%' 'd' (strL "aa")
      (goReplace2 '%' 'n' (strL "aa")
        (goReplace2 '%' 'i' (strL "aa") sc.NamespaceFormat))
    if !matchesNamespacePattern ts then
      some SyncValidationError.badNamespaceName
    else
      checkDataTypes sc.DataTypesToSync

/-- `syncConfig.formatNamespaceName`: substitute `%i`, then `%n`, then `%d`
(chained, each pass over the previous pass's result), and fall back to the
bare id when the result exceeds 63 characters (the fallback branch is also
the one that emits the warning-level log message). -/
def formatNamespaceName (sc : SyncConfig) (id name domain : Str) : Str :=
  let res := goReplace2 '%' 'd' domain
    (goReplace2 '%' 'n' name
      (goReplace2 '%' 'i' id sc.NamespaceFormat))
  if 63 < res.length then id else res

/-- `newSyncConfig`: default values — namespace name is just the keystone
project id, all possible data types are enabled, and the blacklist is the
zero value (empty). -/
def newSyncConfig : SyncConfig :=
  { NamespaceFormat := strL "%i"
    DataTypesToSync := allowedDataTypesToSync
    ProjectBlackList := [] }

/-- Modelled from the spec: the parsed YAML configuration document, with the
three optional fields `data_types_to_sync`, `namespace_format` and
`projects_black_list` (absence of a field means the default applies). -/
structure SyncDocument where
  data_types_to_sync : Option (List Str)
  namespace_format : Option Str
  projects_black_list : Option (List Str)

/-- Modelled from the spec: `yaml.Unmarshal` overlay semantics — a field
present in the document overwrites the corresponding config field, an absent
field leaves the previous value in place. -/
def unmarshalSyncConfig (doc : SyncDocument) (sc : SyncConfig) : SyncConfig :=
  { DataTypesToSync := doc.data_types_to_sync.getD sc.DataTypesToSync
    NamespaceFormat := doc.namespace_format.getD sc.NamespaceFormat
    ProjectBlackList := doc.projects_black_list.getD sc.ProjectBlackList }

/-- `newSyncConfigFromFile`, with the file read and YAML parse abstracted
into an already-parsed document: start from `newSyncConfig` and unmarshal
the document over it. -/
def newSyncConfigFromFile (doc : SyncDocument) : SyncConfig :=
  unmarshalSyncConfig doc newSyncConfig

/-- A document with no fields set (an empty YAML file). -/
def emptySyncDocument : SyncDocument := ⟨none, none, none⟩

/-- The spec's reading of render: the three placeholders substituted
simultaneously, only at the original template's positions (text introduced
by a substituted value is never itself substituted).  Stated for comparison
against `formatNamespaceName`, which chains three replacement passes. -/
def simulSubst (vi vn vd : Str) : Str → Str
  | [] => []
  | a :: rest =>
    if a = '%' then
      match rest with
      | [] => [a]
      | b :: rest' =>
        if b = 'i' then vi ++ simulSubst vi vn vd rest'
        else if b = 'n' then vn ++ simulSubst vi vn vd rest'
        else if b = 'd' then vd ++ simulSubst vi vn vd rest'
        else a :: simulSubst vi vn vd (b :: rest')
    else a :: simulSubst vi vn vd rest

/-! ## Manila share-backend utilities (`util.go`, package `sharebackends`) -/

/-- `getSecretName`: the secret name derived from a share id. -/
def getSecretName (shareID : Str) : Str := strL "manila-" ++ shareID

/-- `shares.ExportLocation`; only the `Path` field is read by the code
under verification. -/
structure ExportLocation where
  Path : Str

/-- `splitExportLocation`: split the path at the last occurrence of `':'`;
a delimiter position `<= 0` (no colon, or the only colon at position 0) is
a parse error, modelled as `none`. -/
def splitExportLocation (loc : ExportLocation) : Option (Str × Str) :=
  match lastIndexByte ':' loc.Path with
  | none => none
  | some delimPos =>
    if delimPos = 0 then none
    else some (loc.Path.take delimPos, loc.Path.drop (delimPos + 1))

/-- Modelled from the spec: the cluster secret-store client, given by the
outcomes of its create and delete calls (name, namespace and data determine
the outcome; errors such as already-exists and not-found are just error
values). -/
structure SecretsClient where
  create : Str → Str → List (Str × Str) → Except Str Unit
  delete : Str → Str → Except Str Unit

/-- `createSecret`: build the secret object with the given name and data and
issue the create call, returning its error if it fails and nil otherwise. -/
def createSecret (name ns : Str) (cs : SecretsClient) (data : List (Str × Str)) :
    Except Str Unit :=
  match cs.create name ns data with
  | Except.error e => Except.error e
  | Except.ok _ => Except.ok ()

/-- `deleteSecret`: issue the delete call and return its result. -/
def deleteSecret (name ns : Str) (cs : SecretsClient) : Except Str Unit :=
  cs.delete name ns

/-- `shares.AccessRight`; the code under verification reads the access key,
and an identifying field keeps distinct records distinguishable. -/
structure AccessRight where
  ID : Str
  AccessKey : Str
deriving DecidableEq

/-- The zero value of `AccessRight` (the initial value of the local
`accessRight` variable in `grantAccessCephx`). -/
def zeroAccessRight : AccessRight := ⟨[], []⟩

/-- The failure classes of `grantAccessCephx`, one per distinct error site:
the grant-access error, a poll (list-access-rights) error, the
unexpected-number-of-access-rules error (recording the observed count), and
`gophercloud.WaitFor`'s timeout error. -/
inductive CephxError where
  | grantFailed (e : Str)
  | pollFailed (e : Str)
  | inconsistency (n : Nat)
  | timeout
deriving DecidableEq

/-- Modelled from the spec: the arguments of the access provisioner.  The
backend client's observable behaviour is the outcome of the grant-access
call and the scripted sequence of list-access-rights responses, indexed by
poll number. -/
structure GrantAccessArgs where
  ShareID : Str
  ShareName : Str
  grantResult : Except Str Unit
  listAccessRights : Nat → Except Str (List AccessRight)

/-- The fixed options passed to `shares.GrantAccess` by `grantAccessCephx`. -/
structure GrantAccessOpts where
  AccessType : Str
  AccessTo : Str
  AccessLevel : Str

/-- `grantAccessCephx` grants with access type `"cephx"`, access-to the
share name, and level `"rw"`. -/
def cephxGrantOpts (args : GrantAccessArgs) : GrantAccessOpts :=
  { AccessType := strL "cephx", AccessTo := args.ShareName, AccessLevel := strL "rw" }

/-- The await-credential loop: `gophercloud.WaitFor(120, predicate)`
(modelled from the spec as one poll per time unit up to the budget) with the
predicate body of `grantAccessCephx` inlined.  `t` is the index of the next
poll, `fuel` the remaining budget, `acc` the captured `accessRight`
variable; an error result carries the captured variable alongside the
error, mirroring the final `return &accessRight, err`. -/
def waitForLoop (script : Nat → Except Str (List AccessRight)) :
    Nat → Nat → AccessRight → Except (CephxError × AccessRight) AccessRight
  | _, 0, acc => Except.error (CephxError.timeout, acc)
  | t, fuel + 1, acc =>
    match script t with
    | Except.error e => Except.error (CephxError.pollFailed e, acc)
    | Except.ok accessRights =>
      if 1 < accessRights.length then
        Except.error (CephxError.inconsistency accessRights.length, acc)
      else
        match accessRights with
        | [] => waitForLoop script (t + 1) fuel acc
        | r :: _ =>
          if r.AccessKey ≠ [] then Except.ok r
          else waitForLoop script (t + 1) fuel acc

/-- `grantAccessCephx`: issue the grant (a failure is returned immediately
with a nil record pointer), then run the await-credential loop from the
zero-valued captured record; the final record pointer is `&accessRight`,
i.e. a (non-nil) `some` of the captured record, with the loop's error. -/
def grantAccessCephx (args : GrantAccessArgs) :
    Option AccessRight × Option CephxError :=
  match args.grantResult with
  | Except.error e => (none, some (CephxError.grantFailed e))
  | Except.ok _ =>
    match waitForLoop args.listAccessRights 0 120 zeroAccessRight with
    | Except.ok r => (some r, none)
    | Except.error (e, acc) => (some acc, some e)

/-- The two poll outcomes the loop treats as not-yet-ready: zero records, or
exactly one record whose access key is still empty. -/
def pollNotReady : Except Str (List AccessRight) → Bool
  | Except.ok [] => true
  | Except.ok [r] => r.AccessKey.isEmpty
  | _ => false

/-! ## Helper lemmas -/

theorem interc_cons (sep x : Str) (xs : List Str) (h : xs ≠ []) :
    interc sep (x :: xs) = x ++ sep ++ interc sep xs := by
  cases xs with
  | nil => exact absurd rfl h
  | cons y ys => rfl

theorem interc_cons_head (sep : Str) (c : Char) (x : Str) (xs : List Str) :
    interc sep ((c :: x) :: xs) = c :: interc sep (x :: xs) := by
  cases xs with
  | nil => rfl
  | cons y ys => rfl

/-- Decomposition of a two-character replacement pass: the input splits into
segments free of the pattern, separated by the pattern's occurrences, and
the output is the same segments separated by the replacement text.  This is
the sense in which `goReplace2` replaces every occurrence. -/
theorem goReplace2_segs (a b : Char) (nw : Str) : (s : Str) →
    ∃ segs : List Str, segs ≠ [] ∧ (∀ seg ∈ segs, containsPair a b seg = false) ∧
      s = interc [a, b] segs ∧ goReplace2 a b nw s = interc nw segs
  | [] =>
    ⟨[[]], by simp, by intro seg hseg; simp at hseg; subst hseg; rfl, rfl, rfl⟩
  | [c] =>
    ⟨[[c]], by simp, by intro seg hseg; simp at hseg; subst hseg; rfl, rfl, rfl⟩
  | c :: d :: rest => by
    by_cases h : c = a ∧ d = b
    · obtain ⟨ha, hb⟩ := h
      obtain ⟨segs', hne, hok, hs, hr⟩ := goReplace2_segs a b nw rest
      refine ⟨[] :: segs', by simp, ?_, ?_, ?_⟩
      · intro seg hseg
        rcases List.mem_cons.mp hseg with h' | h'
        · subst h'; rfl
        · exact hok seg h'
      · rw [interc_cons _ _ _ hne, ← hs, ha, hb]; rfl
      · show goReplace2 a b nw (c :: d :: rest) = interc nw ([] :: segs')
        rw [interc_cons _ _ _ hne]
        simp only [goReplace2]
        rw [if_pos ⟨ha, hb⟩, hr]
        simp
    · obtain ⟨segs', hne, hok, hs, hr⟩ := goReplace2_segs a b nw (d :: rest)
      cases segs' with
      | nil => exact absurd rfl hne
      | cons seg₀ rest' =>
        refine ⟨(c :: seg₀) :: rest', by simp, ?_, ?_, ?_⟩
        · intro seg hseg
          rcases List.mem_cons.mp hseg with h' | h'
          · subst h'
            cases seg₀ with
            | nil => rfl
            | cons e tail =>
              have hd : d = e := by
                rw [interc_cons_head] at hs
                exact (List.cons_eq_cons.mp hs).1
              have htail : containsPair a b (e :: tail) = false :=
                hok (e :: tail) (List.mem_cons_self _ _)
              by_cases hca : c = a
              · by_cases heb : e = b
                · exact absurd ⟨hca, hd ▸ heb⟩ h
                · simp [containsPair, heb, htail]
              · simp [containsPair, hca, htail]
          · exact hok seg (List.mem_cons_of_mem _ h')
        · rw [interc_cons_head, ← hs]
        · simp only [goReplace2, if_neg h, hr, interc_cons_head]
  termination_by s => s.length
  decreasing_by
    · simp; omega
    · simp

theorem checkDataTypes_eq_none : ∀ l : List Str,
    checkDataTypes l = none ↔ ∀ dt ∈ l, dt ∈ allowedDataTypesToSync := by
  intro l
  induction l with
  | nil => simp [checkDataTypes]
  | cons d rest ih =>
    by_cases h : d ∈ allowedDataTypesToSync
    · simp [checkDataTypes, h, ih]
    · simp [checkDataTypes, h]

theorem checkDataTypes_eq_some : ∀ (l : List Str) (dt : Str) (av : List Str),
    checkDataTypes l = some (SyncValidationError.unsupportedDataType dt av) →
    av = allowedDataTypesToSync ∧ dt ∈ l ∧ dt ∉ allowedDataTypesToSync := by
  intro l
  induction l with
  | nil => intro dt av h; simp [checkDataTypes] at h
  | cons d rest ih =>
    intro dt av h
    by_cases hd : d ∈ allowedDataTypesToSync
    · simp only [checkDataTypes, if_pos hd] at h
      obtain ⟨h1, h2, h3⟩ := ih dt av h
      exact ⟨h1, List.mem_cons_of_mem _ h2, h3⟩
    · simp only [checkDataTypes, if_neg hd] at h
      injection h with h
      injection h with h1 h2
      subst h1; subst h2
      exact ⟨rfl, List.mem_cons_self _ _, hd⟩

/-! ## Claim theorems: namespace formatting and config validation -/

/-- C1 (counterexample): the claim that substituted values containing
placeholder substrings are never re-substituted is false.  With template
`"%i"`, id `"%n"`, name `"X"`: the code substitutes `%i` by `"%n"` and the
subsequent `%n` pass replaces that introduced `"%n"` by `"X"`, while the
spec's simultaneous reading (`simulSubst`) keeps it as `"%n"`. -/
theorem formatNamespaceName_resubstitutes :
    formatNamespaceName
        { DataTypesToSync := [], NamespaceFormat := strL "%i", ProjectBlackList := [] }
        (strL "%n") (strL "X") []
      ≠ simulSubst (strL "%n") (strL "X") [] (strL "%i")
    ∧ formatNamespaceName
        { DataTypesToSync := [], NamespaceFormat := strL "%i", ProjectBlackList := [] }
        (strL "%n") (strL "X") [] = strL "X" := by
  exact ⟨by decide, by decide⟩

/-- C1 (amended): render replaces every occurrence of each placeholder, but
the three substitutions are chained in the order `%i`, `%n`, `%d`, each pass
replacing all occurrences present in the result of the previous pass
(the pass splits its input into pattern-free segments and substitutes the
value between them, never rescanning the text it inserts); consequently a
placeholder introduced by an earlier substitution is replaced by a later
pass, as the final conjunct's instance shows. -/
theorem formatNamespaceName_chained_passes (sc : SyncConfig) (id name domain : Str) :
    (∃ segs : List Str, segs ≠ [] ∧ (∀ seg ∈ segs, containsPair '%' 'i' seg = false) ∧
        sc.NamespaceFormat = interc (strL "%i") segs ∧
        goReplace2 '%' 'i' id sc.NamespaceFormat = interc id segs)
  ∧ (∃ segs : List Str, segs ≠ [] ∧ (∀ seg ∈ segs, containsPair '%' 'n' seg = false) ∧
        goReplace2 '%' 'i' id sc.NamespaceFormat = interc (strL "%n") segs ∧
        goReplace2 '%' 'n' name (goReplace2 '%' 'i' id sc.NamespaceFormat) = interc name segs)
  ∧ (∃ segs : List Str, segs ≠ [] ∧ (∀ seg ∈ segs, containsPair '%' 'd' seg = false) ∧
        goReplace2 '%' 'n' name (goReplace2 '%' 'i' id sc.NamespaceFormat)
          = interc (strL "%d") segs ∧
        goReplace2 '%' 'd' domain
            (goReplace2 '%' 'n' name (goReplace2 '%' 'i' id sc.NamespaceFormat))
          = interc domain segs)
  ∧ formatNamespaceName sc id name domain =
      (if 63 < (goReplace2 '%' 'd' domain
            (goReplace2 '%' 'n' name (goReplace2 '%' 'i' id sc.NamespaceFormat))).length
       then id
       else goReplace2 '%' 'd' domain
            (goReplace2 '%' 'n' name (goReplace2 '%' 'i' id sc.NamespaceFormat)))
  ∧ formatNamespaceName { sc with NamespaceFormat := strL "%i" } (strL "%n") (strL "X") []
      = strL "X" := by
  exact ⟨goReplace2_segs '%' 'i' id sc.NamespaceFormat,
         goReplace2_segs '%' 'n' name _,
         goReplace2_segs '%' 'd' domain _,
         rfl, rfl⟩

/-- C1 amended witness: the concrete chained-substitution instance — the
`"%n"` introduced by the id substitution is replaced by the name pass. -/
theorem formatNamespaceName_chained_passes_w :
    formatNamespaceName
        { DataTypesToSync := [], NamespaceFormat := strL "%i", ProjectBlackList := [] }
        (strL "%n") (strL "X") [] = strL "X" :=
  (formatNamespaceName_chained_passes
      { DataTypesToSync := [], NamespaceFormat := strL "%i", ProjectBlackList := [] }
      (strL "%n") (strL "X") []).2.2.2.2

/-- C3: `validate` succeeds iff the template contains `%i`, the test string
(placeholders substituted by the two-character `"aa"`) matches the
namespace-name pattern, and every data-type tag is in the allow-list
`{"projects"}`; the unsupported-data-type error always enumerates the
allow-list, and a template without `%i` fails regardless of anything else. -/
theorem validate_spec (sc : SyncConfig) :
    (validate sc = none ↔
      (containsPair '%' 'i' sc.NamespaceFormat = true
       ∧ matchesNamespacePattern (goReplace2 '%' 'd' (strL "aa")
           (goReplace2 '%' 'n' (strL "aa")
             (goReplace2 '%' 'i' (strL "aa") sc.NamespaceFormat))) = true
       ∧ ∀ dt ∈ sc.DataTypesToSync, dt ∈ allowedDataTypesToSync))
  ∧ (∀ dt av, validate sc = some (SyncValidationError.unsupportedDataType dt av) →
      av = allowedDataTypesToSync ∧ dt ∈ sc.DataTypesToSync ∧ dt ∉ allowedDataTypesToSync)
  ∧ (containsPair '%' 'i' sc.NamespaceFormat = false →
      validate sc = some SyncValidationError.missingProjectID)
  ∧ allowedDataTypesToSync = [strL "projects"] := by
  refine ⟨?_, ?_, ?_, rfl⟩
  · by_cases h1 : containsPair '%' 'i' sc.NamespaceFormat
    · by_cases h2 : matchesNamespacePattern (goReplace2 '%' 'd' (strL "aa")
          (goReplace2 '%' 'n' (strL "aa")
            (goReplace2 '%' 'i' (strL "aa") sc.NamespaceFormat)))
      · simp [validate, h1, h2, checkDataTypes_eq_none]
      · simp [validate, h1, h2]
    · simp [validate, h1]
  · intro dt av h
    by_cases h1 : containsPair '%' 'i' sc.NamespaceFormat
    · by_cases h2 : matchesNamespacePattern (goReplace2 '%' 'd' (strL "aa")
          (goReplace2 '%' 'n' (strL "aa")
            (goReplace2 '%' 'i' (strL "aa") sc.NamespaceFormat)))
      · simp only [validate, h1, h2] at h
        simp at h
        exact checkDataTypes_eq_some sc.DataTypesToSync dt av h
      · simp [validate, h1, h2] at h
    · simp [validate, h1] at h
  · intro h1
    simp [validate, h1]

/-- C3 witness: a concrete config with template `"ns-%i"` and data types
`["projects"]` validates successfully. -/
theorem validate_spec_w :
    validate { DataTypesToSync := [strL "projects"], NamespaceFormat := strL "ns-%i",
               ProjectBlackList := [] } = none :=
  (validate_spec { DataTypesToSync := [strL "projects"], NamespaceFormat := strL "ns-%i",
                   ProjectBlackList := [] }).1.mpr (by decide)

/-- C4: if the substituted string is longer than 63 characters the render
returns the bare id (the branch that also logs the warning), otherwise it
returns the substituted string exactly; in particular an empty id rendered
through the default `"%i"` template comes back unchanged (empty). -/
theorem formatNamespaceName_length_policy (sc : SyncConfig) (id name domain : Str) :
    (63 < (goReplace2 '%' 'd' domain
        (goReplace2 '%' 'n' name (goReplace2 '%' 'i' id sc.NamespaceFormat))).length →
      formatNamespaceName sc id name domain = id)
  ∧ ((goReplace2 '%' 'd' domain
        (goReplace2 '%' 'n' name (goReplace2 '%' 'i' id sc.NamespaceFormat))).length ≤ 63 →
      formatNamespaceName sc id name domain =
        goReplace2 '%' 'd' domain
          (goReplace2 '%' 'n' name (goReplace2 '%' 'i' id sc.NamespaceFormat)))
  ∧ formatNamespaceName { sc with NamespaceFormat := strL "%i" } [] name domain = [] := by
  refine ⟨?_, ?_, rfl⟩
  · intro h
    simp [formatNamespaceName, h]
  · intro h
    have h' : ¬ 63 < (goReplace2 '%' 'd' domain
        (goReplace2 '%' 'n' name (goReplace2 '%' 'i' id sc.NamespaceFormat))).length := by
      omega
    simp [formatNamespaceName, h']

/-- C4 witness: a short template renders to the substituted string, a long
rendered value falls back to the id. -/
theorem formatNamespaceName_length_policy_w :
    formatNamespaceName
        { DataTypesToSync := [], NamespaceFormat := strL "ns-%i", ProjectBlackList := [] }
        (strL "abc") (strL "n") (strL "d") = strL "ns-abc" :=
  (formatNamespaceName_length_policy
      { DataTypesToSync := [], NamespaceFormat := strL "ns-%i", ProjectBlackList := [] }
      (strL "abc") (strL "n") (strL "d")).2.1 (by decide)

/-- C6: the default config uses namespace format `"%i"`, the full allow-list
as data types, and an empty blacklist; loading from an empty document yields
exactly the defaults, and a document setting only the namespace format
leaves the other two fields at their defaults. -/
theorem newSyncConfig_defaults :
    newSyncConfig.NamespaceFormat = strL "%i"
  ∧ newSyncConfig.DataTypesToSync = allowedDataTypesToSync
  ∧ newSyncConfig.ProjectBlackList = []
  ∧ allowedDataTypesToSync = [strL "projects"]
  ∧ newSyncConfigFromFile emptySyncDocument = newSyncConfig
  ∧ ∀ f : Str, newSyncConfigFromFile ⟨none, some f, none⟩
      = { newSyncConfig with NamespaceFormat := f } := by
  exact ⟨rfl, rfl, rfl, rfl, rfl, fun f => rfl⟩

/-! ## Export-location splitting -/

theorem lastIndexByte_eq_none (c : Char) : ∀ s : Str, lastIndexByte c s = none ↔ c ∉ s := by
  intro s
  induction s with
  | nil => simp [lastIndexByte]
  | cons a rest ih =>
    simp only [lastIndexByte]
    cases h : lastIndexByte c rest with
    | some i =>
      have hc : c ∈ rest := by
        by_contra hc
        rw [(ih.mpr hc)] at h
        exact Option.noConfusion h
      simp [hc]
    | none =>
      have hc : c ∉ rest := ih.mp h
      by_cases hac : a = c
      · simp [hac]
      · simp [hac, hc]
        exact fun h' => hac h'.symm

theorem lastIndexByte_eq_some (c : Char) : ∀ (s : Str) (i : Nat),
    lastIndexByte c s = some i →
    ∃ pre suf : Str, s = pre ++ c :: suf ∧ pre.length = i ∧ c ∉ suf := by
  intro s
  induction s with
  | nil => intro i h; simp [lastIndexByte] at h
  | cons a rest ih =>
    intro i h
    simp only [lastIndexByte] at h
    cases h' : lastIndexByte c rest with
    | some j =>
      rw [h'] at h
      obtain ⟨pre, suf, h1, h2, h3⟩ := ih j h'
      injection h with h
      exact ⟨a :: pre, suf, by rw [h1]; rfl, by simp [h2, ← h], h3⟩
    | none =>
      rw [h'] at h
      by_cases hac : a = c
      · rw [if_pos hac] at h
        injection h with h
        exact ⟨[], rest, by simp [hac], h ▸ rfl, (lastIndexByte_eq_none c rest).mp h'⟩
      · rw [if_neg hac] at h
        exact Option.noConfusion h

theorem take_len_append : ∀ (pre suf : Str), (pre ++ suf).take pre.length = pre := by
  intro pre
  induction pre with
  | nil => intro suf; rfl
  | cons a pre ih => intro suf; simp [List.take, ih]

theorem drop_len_succ_append : ∀ (pre suf : Str) (c : Char),
    (pre ++ c :: suf).drop (pre.length + 1) = suf := by
  intro pre
  induction pre with
  | nil => intro suf c; rfl
  | cons a pre ih => intro suf c; simp only [List.cons_append, List.length_cons, List.drop_succ_cons]; exact ih suf c

theorem get_len_append : ∀ (pre suf : Str) (c : Char)
    (h : pre.length < (pre ++ c :: suf).length),
    (pre ++ c :: suf).get ⟨pre.length, h⟩ = c := by
  intro pre
  induction pre with
  | nil => intro suf c h; rfl
  | cons a pre ih => intro suf c h; exact ih suf c (by simp only [List.cons_append, List.length_cons, Nat.add_lt_add_iff_right] at h; exact h)

/-- Characterization of a successful `splitExportLocation`: the address is
everything before the last colon (hence nonempty), the location everything
after it (hence colon-free), and together they reassemble the path. -/
theorem splitExportLocation_eq_some (loc : ExportLocation) (a l : Str)
    (h : splitExportLocation loc = some (a, l)) :
    loc.Path = a ++ ':' :: l ∧ ':' ∉ l ∧ a ≠ [] := by
  cases hL : lastIndexByte ':' loc.Path with
  | none => simp [splitExportLocation, hL] at h
  | some p =>
    simp only [splitExportLocation, hL] at h
    by_cases hp : p = 0
    · rw [if_pos hp] at h; exact Option.noConfusion h
    · rw [if_neg hp] at h
      injection h with h
      injection h with ha hl
      obtain ⟨pre, suf, h1, h2, h3⟩ := lastIndexByte_eq_some ':' loc.Path p hL
      have hTake : loc.Path.take p = pre := by
        rw [h1, ← h2, take_len_append pre (':' :: suf)]
      have hDrop : loc.Path.drop (p + 1) = suf := by
        rw [h1, ← h2, drop_len_succ_append pre suf ':']
      have haa : a = pre := by rw [← ha, hTake]
      have hll : l = suf := by rw [← hl, hDrop]
      subst haa; subst hll
      refine ⟨by rw [h1], h3, ?_⟩
      intro hnil
      apply hp
      rw [← h2, hnil]
      rfl

/-- C5: `splitExportLocation` fails exactly when every colon in the path sits
at position 0 (including the no-colon case); on success it splits at the
last colon — the address is everything before it and the location (which is
colon-free, making the split colon the rightmost one) everything after it —
and the spec's example splits as stated. -/
theorem splitExportLocation_spec (loc : ExportLocation) :
    (splitExportLocation loc = none ↔
      ∀ (i : Nat) (h : i < loc.Path.length), loc.Path.get ⟨i, h⟩ = ':' → i = 0)
  ∧ (∀ a l, splitExportLocation loc = some (a, l) → loc.Path = a ++ ':' :: l ∧ ':' ∉ l)
  ∧ splitExportLocation ⟨strL "10.0.0.1:2049,10.0.0.2:2049:/vol/share1"⟩ =
      some (strL "10.0.0.1:2049,10.0.0.2:2049", strL "/vol/share1") := by
  refine ⟨⟨?_, ?_⟩, ?_, by decide⟩
  · intro hnone i h hcolon
    cases hL : lastIndexByte ':' loc.Path with
    | none =>
      have hmem : ':' ∈ loc.Path := hcolon ▸ List.get_mem loc.Path i h
      exact absurd hmem ((lastIndexByte_eq_none ':' loc.Path).mp hL)
    | some p =>
      by_cases hp : p = 0
      · subst hp
        obtain ⟨pre, suf, h1, h2, h3⟩ := lastIndexByte_eq_some ':' loc.Path 0 hL
        have hpre : pre = [] := List.length_eq_zero.mp h2
        subst hpre
        rw [List.nil_append] at h1
        cases i with
        | zero => rfl
        | succ j =>
          exfalso
          revert h hcolon
          rw [h1]
          intro h hcolon
          have hj : j < suf.length := by simpa using h
          have hc2 : suf.get ⟨j, hj⟩ = ':' := hcolon
          exact h3 (hc2 ▸ List.get_mem suf j hj)
      · exfalso
        simp [splitExportLocation, hL, hp] at hnone
  · intro hall
    cases hL : lastIndexByte ':' loc.Path with
    | none => simp [splitExportLocation, hL]
    | some p =>
      simp only [splitExportLocation, hL]
      obtain ⟨pre, suf, h1, h2, h3⟩ := lastIndexByte_eq_some ':' loc.Path p hL
      rw [h1] at hall
      have hlen : pre.length < (pre ++ ':' :: suf).length := by simp
      have hp0 : pre.length = 0 := hall pre.length hlen (get_len_append pre suf ':' hlen)
      rw [if_pos (by omega : p = 0)]
  · intro a l h
    obtain ⟨h1, h2, h3⟩ := splitExportLocation_eq_some loc a l h
    exact ⟨h1, h2⟩

/-- C5 witness: on the concrete path `"a:b"` the split succeeds and the
success characterization holds. -/
theorem splitExportLocation_spec_w :
    (ExportLocation.mk (strL "a:b")).Path = strL "a" ++ ':' :: strL "b" ∧ ':' ∉ strL "b" :=
  (splitExportLocation_spec ⟨strL "a:b"⟩).2.1 (strL "a") (strL "b") (by decide)

/-- C9: whenever `splitExportLocation` succeeds, the address is non-empty,
the location contains no colon, and address ++ ":" ++ location reconstructs
the original path exactly. -/
theorem splitExportLocation_roundtrip (loc : ExportLocation) (a l : Str)
    (h : splitExportLocation loc = some (a, l)) :
    a ≠ [] ∧ ':' ∉ l ∧ a ++ ':' :: l = loc.Path := by
  obtain ⟨h1, h2, h3⟩ := splitExportLocation_eq_some loc a l h
  exact ⟨h3, h2, h1.symm⟩

/-- C9 witness: the round trip at the concrete path `"x:y"`. -/
theorem splitExportLocation_roundtrip_w :
    strL "x" ≠ [] ∧ ':' ∉ strL "y"
      ∧ strL "x" ++ ':' :: strL "y" = (ExportLocation.mk (strL "x:y")).Path :=
  splitExportLocation_roundtrip ⟨strL "x:y"⟩ (strL "x") (strL "y") (by decide)

/-! ## Access provisioning -/

theorem waitForLoop_step (script : Nat → Except Str (List AccessRight)) (t fuel : Nat)
    (acc : AccessRight) (h : pollNotReady (script t) = true) :
    waitForLoop script t (fuel + 1) acc = waitForLoop script (t + 1) fuel acc := by
  cases hs : script t with
  | error e => simp [pollNotReady, hs] at h
  | ok rs =>
    rcases rs with _ | ⟨r, _ | ⟨r2, rest⟩⟩
    · simp [waitForLoop, hs]
    · have hk : r.AccessKey = [] := by
        have := h
        simp only [pollNotReady, hs] at this
        exact List.isEmpty_iff.mp this
      simp [waitForLoop, hs, hk]
    · simp [pollNotReady, hs] at h

theorem waitForLoop_shift (script : Nat → Except Str (List AccessRight)) :
    ∀ (k t fuel : Nat) (acc : AccessRight),
    (∀ s, s < k → pollNotReady (script (t + s)) = true) →
    waitForLoop script t (k + fuel) acc = waitForLoop script (t + k) fuel acc := by
  intro k
  induction k with
  | zero => intro t fuel acc _; simp
  | succ k ih =>
    intro t fuel acc h
    have h0 : pollNotReady (script t) = true := by
      have := h 0 (Nat.succ_pos k)
      simpa using this
    have hstep : waitForLoop script t (k + 1 + fuel) acc
        = waitForLoop script (t + 1) (k + fuel) acc := by
      rw [show k + 1 + fuel = (k + fuel) + 1 by omega]
      exact waitForLoop_step script t (k + fuel) acc h0
    rw [hstep, ih (t + 1) fuel acc ?_]
    · rw [show t + 1 + k = t + (k + 1) by omega]
    · intro s hs
      have := h (s + 1) (by omega)
      rw [show t + 1 + s = t + (s + 1) by omega]
      exact this

theorem waitForLoop_err_acc (script : Nat → Except Str (List AccessRight)) :
    ∀ (fuel t : Nat) (acc acc' : AccessRight) (e : CephxError),
    waitForLoop script t fuel acc = Except.error (e, acc') → acc' = acc := by
  intro fuel
  induction fuel with
  | zero =>
    intro t acc acc' e h
    simp only [waitForLoop] at h
    injection h with h
    exact (congrArg Prod.snd h).symm
  | succ fuel ih =>
    intro t acc acc' e h
    simp only [waitForLoop] at h
    split at h
    · injection h with h
      exact (congrArg Prod.snd h).symm
    · split at h
      · injection h with h
        exact (congrArg Prod.snd h).symm
      · split at h
        · exact ih (t + 1) acc acc' e h
        · split at h
          · exact Except.noConfusion h
          · exact ih (t + 1) acc acc' e h

/-- C2: behaviour of the await-credential phase.  After any prefix of
not-yet-ready polls within the budget: a poll error aborts with the
poll-failure error; more than one record aborts immediately with the
inconsistency error; exactly one record with a non-empty key succeeds with
that record; a not-yet-ready poll (zero records, or one record with empty
key) just continues the loop with one less unit of budget; and if all 120
polls are not-yet-ready the result is the distinct timeout error. -/
theorem grantAccessCephx_pollPhases (sid sname : Str)
    (script : Nat → Except Str (List AccessRight)) (k : Nat) (hk : k < 120)
    (hpre : ∀ s, s < k → pollNotReady (script s) = true) :
    (∀ e, script k = Except.error e →
      grantAccessCephx ⟨sid, sname, Except.ok (), script⟩
        = (some zeroAccessRight, some (CephxError.pollFailed e)))
  ∧ (∀ rs, script k = Except.ok rs → 1 < rs.length →
      grantAccessCephx ⟨sid, sname, Except.ok (), script⟩
        = (some zeroAccessRight, some (CephxError.inconsistency rs.length)))
  ∧ (∀ r, script k = Except.ok [r] → r.AccessKey ≠ [] →
      grantAccessCephx ⟨sid, sname, Except.ok (), script⟩ = (some r, none))
  ∧ (∀ t fuel acc, pollNotReady (script t) = true →
      waitForLoop script t (fuel + 1) acc = waitForLoop script (t + 1) fuel acc)
  ∧ ((∀ s, s < 120 → pollNotReady (script s) = true) →
      grantAccessCephx ⟨sid, sname, Except.ok (), script⟩
        = (some zeroAccessRight, some CephxError.timeout))
  ∧ (∀ e n, CephxError.timeout ≠ CephxError.pollFailed e
      ∧ CephxError.timeout ≠ CephxError.inconsistency n) := by
  have hshift : waitForLoop script 0 120 zeroAccessRight
      = waitForLoop script k (120 - k) zeroAccessRight := by
    have := waitForLoop_shift script k 0 (120 - k) zeroAccessRight (by simpa using hpre)
    rw [show k + (120 - k) = 120 by omega] at this
    simpa using this
  obtain ⟨m, hm⟩ : ∃ m, 120 - k = m + 1 := ⟨119 - k, by omega⟩
  refine ⟨?_, ?_, ?_, ?_, ?_,
    fun e n => ⟨fun hc => CephxError.noConfusion hc, fun hc => CephxError.noConfusion hc⟩⟩
  · intro e he
    have hw : waitForLoop script 0 120 zeroAccessRight
        = Except.error (CephxError.pollFailed e, zeroAccessRight) := by
      rw [hshift, hm]
      simp [waitForLoop, he]
    simp [grantAccessCephx, hw]
  · intro rs hrs hlen
    have hw : waitForLoop script 0 120 zeroAccessRight
        = Except.error (CephxError.inconsistency rs.length, zeroAccessRight) := by
      rw [hshift, hm]
      simp [waitForLoop, hrs, hlen]
    simp [grantAccessCephx, hw]
  · intro r hr hkey
    have hw : waitForLoop script 0 120 zeroAccessRight = Except.ok r := by
      rw [hshift, hm]
      simp [waitForLoop, hr, hkey]
    simp [grantAccessCephx, hw]
  · intro t fuel acc h
    exact waitForLoop_step script t fuel acc h
  · intro hall
    have hw : waitForLoop script 0 120 zeroAccessRight
        = Except.error (CephxError.timeout, zeroAccessRight) := by
      have := waitForLoop_shift script 120 0 0 zeroAccessRight (by simpa using hall)
      simpa using this
    simp [grantAccessCephx, hw]

/-- The scripted backend for the C2 witness: first poll returns zero
records, afterwards one record with a non-empty key. -/
def readyAtOneScript : Nat → Except Str (List AccessRight) :=
  fun t => if t = 0 then Except.ok []
           else Except.ok [⟨strL "right1", strL "secretkey"⟩]

/-- C2 witness: with one not-yet-ready poll followed by a populated record,
provisioning succeeds with that record. -/
theorem grantAccessCephx_pollPhases_w :
    grantAccessCephx ⟨[], [], Except.ok (), readyAtOneScript⟩
      = (some ⟨strL "right1", strL "secretkey"⟩, none) :=
  (grantAccessCephx_pollPhases [] [] readyAtOneScript 1 (by decide)
      (by decide)).2.2.1 ⟨strL "right1", strL "secretkey"⟩ rfl (by decide)

/-- C7: a failing grant-access call is returned immediately as a fatal
error with a nil record pointer; the await-credential phase is never
entered — the result does not depend on the list-access-rights backend
behaviour at all. -/
theorem grantAccessCephx_grantFailure (sid sname e : Str)
    (script script' : Nat → Except Str (List AccessRight)) :
    grantAccessCephx ⟨sid, sname, Except.error e, script⟩
      = (none, some (CephxError.grantFailed e))
  ∧ grantAccessCephx ⟨sid, sname, Except.error e, script⟩
      = grantAccessCephx ⟨sid, sname, Except.error e, script'⟩ :=
  ⟨rfl, rfl⟩

/-- C10: when the grant succeeds but the await-credential phase ends in an
error, the returned record pointer is a non-nil pointer to the zero-valued
record (all fields empty) — unlike the grant-failure path, which returns a
nil pointer — so failure must be detected through the error value. -/
theorem grantAccessCephx_failurePointer (sid sname : Str)
    (script : Nat → Except Str (List AccessRight)) :
    (∀ p e, grantAccessCephx ⟨sid, sname, Except.ok (), script⟩ = (p, some e) →
      p = some zeroAccessRight)
  ∧ (∀ e, (grantAccessCephx ⟨sid, sname, Except.error e, script⟩).1 = none)
  ∧ zeroAccessRight.ID = [] ∧ zeroAccessRight.AccessKey = [] := by
  refine ⟨?_, fun e => rfl, rfl, rfl⟩
  intro p e h
  simp only [grantAccessCephx] at h
  cases hw : waitForLoop script 0 120 zeroAccessRight with
  | ok r =>
    rw [hw] at h
    injection h with h1 h2
    exact Option.noConfusion h2
  | error pe =>
    obtain ⟨e', acc⟩ := pe
    rw [hw] at h
    injection h with h1 h2
    rw [← h1, waitForLoop_err_acc script 120 0 zeroAccessRight acc e' hw]

/-- The always-failing backend for the C10 witness. -/
def alwaysErrScript : Nat → Except Str (List AccessRight) :=
  fun _ => Except.error (strL "list failed")

/-- C10 witness: with a backend whose first poll fails, the returned pointer
at the concrete run is the zero-valued record. -/
theorem grantAccessCephx_failurePointer_w :
    (some zeroAccessRight : Option AccessRight) = some zeroAccessRight :=
  (grantAccessCephx_failurePointer [] [] alwaysErrScript).1
    (some zeroAccessRight) (CephxError.pollFailed (strL "list failed")) (by decide)

/-- C8: the secret name is deterministically `"manila-" + shareID`, and
create/delete return exactly what the cluster client's create/delete call
returns — every client error (already-exists, not-found, ...) is propagated
verbatim, and success is returned exactly on client success. -/
theorem secretBinder_spec (shareID ns : Str) (cs : SecretsClient)
    (data : List (Str × Str)) :
    getSecretName shareID = strL "manila-" ++ shareID
  ∧ createSecret (getSecretName shareID) ns cs data
      = cs.create (getSecretName shareID) ns data
  ∧ deleteSecret (getSecretName shareID) ns cs = cs.delete (getSecretName shareID) ns := by
  refine ⟨rfl, ?_, rfl⟩
  cases h : cs.create (getSecretName shareID) ns data with
  | error e => simp [createSecret, h]
  | ok u => simp [createSecret, h]
